import Mathlib

/-!
Verification of `extobadges` (src/main.rs), a scraper that fetches extension
store pages, extracts user counts, sums them per entry and renders an SVG
badge per entry.

The embedding models:
- `u32` values as `Nat` with explicit `% 2^32` where Rust performs arithmetic;
- Rust `Option`/`Result` as Lean `Option`/`Except`;
- process-level effects (`std::process::exit(-1)`, slice panics) as explicit
  constructors of result types;
- HTML documents as an explicit node tree (`Node`); the external HTML parser
  (`select::document::Document::from`) is a parameter `parse : String → List Node`
  of the extraction functions, since the parsing library is an external
  dependency.  The per-node logic (predicates, traversal order, `text()`,
  `attr`, `children`, `parent`) is embedded from the source;
- the HTTP client (`ureq`, wrapped by `fetch_page`) as a parameter
  `fetch : String → Except Unit String`;
- the badge renderer (`badges::BadgeBuilder`, an external library) as a
  parameter `render : Nat → String` applied to the accumulated total.
-/

instance {ε α : Type} [DecidableEq ε] [DecidableEq α] :
    DecidableEq (Except ε α) := fun a b =>
  match a, b with
  | .error e1, .error e2 =>
      if h : e1 = e2 then isTrue (by rw [h])
      else isFalse (by intro hh; injection hh; exact h ‹_›)
  | .error _, .ok _ => isFalse (fun h => Except.noConfusion h)
  | .ok _, .error _ => isFalse (fun h => Except.noConfusion h)
  | .ok a1, .ok a2 =>
      if h : a1 = a2 then isTrue (by rw [h])
      else isFalse (by intro hh; injection hh; exact h ‹_›)

/-- Tokenizer behind `splitWS`: `cur` carries the (reversed) token being read. -/
def wsTokens (cs : List Char) (cur : List Char) : List String :=
  match cs with
  | [] => if cur.isEmpty then [] else [String.mk cur.reverse]
  | c :: rest =>
      if c.isWhitespace then
        (if cur.isEmpty then [] else [String.mk cur.reverse]) ++ wsTokens rest []
      else wsTokens rest (c :: cur)

/-- Rust `str::split_whitespace`: split on whitespace, dropping empty tokens. -/
def splitWS (s : String) : List String :=
  wsTokens s.data []

/-- Numeric value of a digit string. -/
def digitsVal (cs : List Char) : Nat :=
  cs.foldl (fun a c => a * 10 + (c.toNat - 48)) 0

/-- Rust `str::parse::<u32>()`: optional leading `+`, then one or more ASCII
digits, value must fit in 32 bits; anything else is `Err` (here `none`). -/
def parseU32 (s : String) : Option Nat :=
  let t := match s.data with
           | '+' :: rest => rest
           | cs => cs
  if t ≠ [] ∧ t.all Char.isDigit then
    if digitsVal t < 2 ^ 32 then some (digitsVal t) else none
  else none

/-- Rust `str::trim`: strip leading and trailing whitespace. -/
def strTrim (s : String) : String :=
  String.mk (((s.data.dropWhile Char.isWhitespace).reverse.dropWhile
    Char.isWhitespace).reverse)

/-- An HTML node as exposed by the `select` crate: either a text node or an
element with a tag name, attributes and child nodes. -/
inductive Node where
  | text (s : String)
  | elem (name : String) (attrs : List (String × String)) (children : List Node)

mutual
def nodeDecEq : (a b : Node) → Decidable (a = b)
  | .text s, .text t =>
      if h : s = t then isTrue (by rw [h]) else isFalse (by simp [h])
  | .text _, .elem _ _ _ => isFalse (fun h => Node.noConfusion h)
  | .elem _ _ _, .text _ => isFalse (fun h => Node.noConfusion h)
  | .elem n1 a1 c1, .elem n2 a2 c2 =>
      if h1 : n1 = n2 then
        if h2 : a1 = a2 then
          match nodeListDecEq c1 c2 with
          | isTrue h3 => isTrue (by rw [h1, h2, h3])
          | isFalse h3 => isFalse (by intro h; injection h; exact h3 ‹_›)
        else isFalse (by intro h; injection h; exact h2 ‹_›)
      else isFalse (by intro h; injection h; exact h1 ‹_›)

def nodeListDecEq : (a b : List Node) → Decidable (a = b)
  | [], [] => isTrue rfl
  | [], _ :: _ => isFalse (by simp)
  | _ :: _, [] => isFalse (by simp)
  | x :: xs, y :: ys =>
      match nodeDecEq x y, nodeListDecEq xs ys with
      | isTrue h1, isTrue h2 => isTrue (by rw [h1, h2])
      | isFalse h1, _ => isFalse (by intro h; injection h; exact h1 ‹_›)
      | _, isFalse h2 => isFalse (by intro h; injection h; exact h2 ‹_›)
end

instance : DecidableEq Node := nodeDecEq

/-- `node.name()`: `Some` tag name for elements, `None` for text nodes. -/
def nodeName : Node → Option String
  | .text _ => none
  | .elem n _ _ => some n

/-- `node.attr(key)`: look up an attribute value. -/
def nodeAttr (key : String) : Node → Option String
  | .text _ => none
  | .elem _ attrs _ => (attrs.find? (fun p => p.1 = key)).map (fun p => p.2)

/-- The `select` crate's `Class(c)` predicate: the `class` attribute, split on
whitespace, contains `c`. -/
def hasClassWord (c : String) (n : Node) : Bool :=
  match nodeAttr "class" n with
  | some s => (splitWS s).contains c
  | none => false

mutual
/-- `node.text()`: concatenation of all descendant text nodes, in order. -/
def nodeText : Node → String
  | .text s => s
  | .elem _ _ cs => nodeTextList cs

def nodeTextList : List Node → String
  | [] => ""
  | c :: rest => nodeText c ++ nodeTextList rest
end

/-- Matches `And(Name("dl"), Class("MetadataCard-list"))`. -/
def isMetadataDl (n : Node) : Bool :=
  nodeName n = some "dl" && hasClassWord "MetadataCard-list" n

/-- Matches `And(Name("dt"), Class("MetadataCard-title"))`. -/
def isMetadataDt (n : Node) : Bool :=
  nodeName n = some "dt" && hasClassWord "MetadataCard-title" n

mutual
/-- `document.find(dl.descendant(dt))` in document (preorder) order, recording
for each matched `dt` the children list of its parent (the information the
source reads through `node.parent().unwrap().children()`).  `flag` records
whether some strict ancestor matches the `dl` predicate. -/
def dtCands (flag : Bool) : Node → List (Node × List Node)
  | .text _ => []
  | .elem nm attrs cs => dtCandsList (flag || isMetadataDl (.elem nm attrs cs)) cs cs

def dtCandsList (flag : Bool) (sibs : List Node) : List Node → List (Node × List Node)
  | [] => []
  | c :: rest =>
      (if flag && isMetadataDt c then [(c, sibs)] else [])
        ++ dtCands flag c ++ dtCandsList flag sibs rest
end

/-- The candidate loop of `extract_mozilla_addon_users` (main.rs lines 69-86):
for each title cell whose trimmed text is `"Users"`, take the first child of
its parent named `dd`; if present, return the parse of its text (`None` on a
parse error); if absent, fall through to the next candidate. -/
def mozillaLoop : List (Node × List Node) → Option Nat
  | [] => none
  | (dt, sibs) :: rest =>
      if strTrim (nodeText dt) = "Users" then
        match sibs.find? (fun c => (nodeName c).getD "" = "dd") with
        | some dd => parseU32 (nodeText dd)
        | none => mozillaLoop rest
      else mozillaLoop rest

/-- `extract_mozilla_addon_users` (main.rs lines 61-89), with the external
HTML parser as the parameter `parse`. -/
def extract_mozilla_addon_users (parse : String → List Node) (page : String) :
    Option Nat :=
  let roots := parse page
  mozillaLoop (dtCandsList false roots roots)

/-- Result of `extract_chrome_webstore_users`: the function can terminate the
whole process (`std::process::exit(-1)`), panic on an out-of-range slice, or
return an `Option<u32>`. -/
inductive ChromeResult where
  | fatalExit
  | panicked
  | ok (r : Option Nat)
deriving DecidableEq, Repr

/-- Rust `str::find(pat)`: index of the first occurrence of `pat`. -/
def findIdx (hay pat : List Char) : Option Nat :=
  match hay with
  | [] => if pat.isEmpty then some 0 else none
  | _ :: t => if pat.isPrefixOf hay then some 0 else (findIdx t pat).map (· + 1)

/-- Rust `str::rfind(pat)`: index of the last occurrence of `pat`. -/
def rfindIdx (hay pat : List Char) : Option Nat :=
  match hay with
  | [] => if pat.isEmpty then some 0 else none
  | _ :: t =>
      match rfindIdx t pat with
      | some i => some (i + 1)
      | none => if pat.isPrefixOf hay then some 0 else none

/-- Whether `pat` occurs as a contiguous substring of `hay`. -/
def hasSub (hay pat : List Char) : Bool :=
  match hay with
  | [] => pat.isEmpty
  | _ :: t => pat.isPrefixOf hay || hasSub t pat

def noscriptOpen : List Char := "<noscript>".data

def noscriptClose : List Char := "</noscript>".data

mutual
/-- `document.find(Name("span"))` in document (preorder) order. -/
def findSpans : Node → List Node
  | .text _ => []
  | .elem nm attrs cs =>
      (if nm = "span" then [Node.elem nm attrs cs] else []) ++ findSpansList cs

def findSpansList : List Node → List Node
  | [] => []
  | c :: rest => findSpans c ++ findSpansList rest
end

/-- The candidate loop of `extract_chrome_webstore_users` (main.rs lines
105-122): for each span carrying a `title` attribute equal to its own text,
split the title on whitespace; skip the candidate unless there are exactly two
tokens; parse the first token (`None` on a parse error, otherwise the value). -/
def chromeLoop : List Node → Option Nat
  | [] => none
  | n :: rest =>
      match nodeAttr "title" n with
      | none => chromeLoop rest
      | some title =>
          if title = nodeText n then
            match splitWS title with
            | [a, _b] => parseU32 a
            | _ => chromeLoop rest
          else chromeLoop rest

/-- `extract_chrome_webstore_users` (main.rs lines 91-125): locate the first
`<noscript>` and the last `</noscript>`; if either is absent, exit the
process; slice the text strictly between them (a panic when the slice bounds
are inverted); parse the slice and scan its spans. -/
def extract_chrome_webstore_users (parse : String → List Node) (page : String) :
    ChromeResult :=
  match findIdx page.data noscriptOpen, rfindIdx page.data noscriptClose with
  | some s, some e =>
      if s + 10 > e then .panicked
      else
        let actual := String.mk ((page.data.drop (s + 10)).take (e - (s + 10)))
        .ok (chromeLoop (findSpansList (parse actual)))
  | _, _ => .fatalExit

/-- The `[badges]` TOML record for one entry: two optional store ids. -/
structure ExtensionPages where
  chrome : Option String
  mozilla : Option String
deriving DecidableEq, Repr

/-- Result of `generate_users_badge`: process exit from the chrome extractor,
a slice panic, a propagated fetch error, or a total and its rendered badge. -/
inductive GenResult where
  | fatalExit
  | panicked
  | err
  | ok (total : Nat) (svg : String)
deriving DecidableEq, Repr

def chromeUrl (cid : String) : String :=
  "https://chrome.google.com/webstore/detail/" ++ cid

def mozillaUrl (mid : String) : String :=
  "https://addons.mozilla.org/en-US/firefox/addon/" ++ mid ++ "/"

/-- The mozilla half of `generate_users_badge` (main.rs lines 145-153) plus
the final render, entered with the total accumulated so far. -/
def mozillaStep (parse : String → List Node) (fetch : String → Except Unit String)
    (render : Nat → String) (pages : ExtensionPages) (total : Nat) : GenResult :=
  match pages.mozilla with
  | some mid =>
      match fetch (mozillaUrl mid) with
      | .error _ => .err
      | .ok page =>
          let t := (total + ((extract_mozilla_addon_users parse page).getD 0)) % 2 ^ 32
          .ok t (render t)
  | none => .ok total (render total)

/-- `generate_users_badge` (main.rs lines 134-164): for each configured store,
fetch the page (`?` propagates fetch errors), extract the count, `unwrap_or(0)`
and accumulate with `u32` (wrapping modelled as `% 2^32`); render the total.
The `delay` parameter only feeds `sleep` in the source and has no effect here. -/
def generate_users_badge (parse : String → List Node)
    (fetch : String → Except Unit String) (render : Nat → String)
    (delay : Nat) (pages : ExtensionPages) : GenResult :=
  let _ := delay
  match pages.chrome with
  | some cid =>
      match fetch (chromeUrl cid) with
      | .error _ => .err
      | .ok page =>
          match extract_chrome_webstore_users parse page with
          | .fatalExit => .fatalExit
          | .panicked => .panicked
          | .ok r => mozillaStep parse fetch render pages ((0 + r.getD 0) % 2 ^ 32)
  | none => mozillaStep parse fetch render pages 0

/-- How the process run can end: falling off the end of `main` (exit code 0),
the chrome extractor's `std::process::exit(-1)`, or a panic. -/
inductive ExitKind where
  | exitZero
  | fatalAbort
  | panicAbort
deriving DecidableEq, Repr

/-- Observable outcome of the batch loop in `main`: printed lines, written
files (path, contents) and how the process ended. -/
structure BatchOutcome where
  logs : List String
  files : List (String × String)
  exit : ExitKind
deriving DecidableEq, Repr

/-- `format!("{}/{}.svg", config.dest_path, badge_name)`. -/
def svgPath (dest name : String) : String := dest ++ "/" ++ name ++ ".svg"

/-- `println!("Generating badge for '{badge_name}'...")`. -/
def progressMsg (name : String) : String :=
  "Generating badge for '" ++ name ++ "'..."

/-- `println!("Failed to generate badge for '{badge_name}'!")`. -/
def failMsg (name : String) : String :=
  "Failed to generate badge for '" ++ name ++ "'!"

/-- The per-entry loop of `main` (main.rs lines 178-192): report progress,
generate the badge; on error log a failure and continue; on success write the
SVG to `<dest>/<name>.svg`; a fatal exit or panic inside generation ends the
process at once; falling off the end of the loop exits with code 0. -/
def runBatch (parse : String → List Node) (fetch : String → Except Unit String)
    (render : Nat → String) (delay : Nat) (dest : String) :
    List (String × ExtensionPages) → BatchOutcome
  | [] => ⟨[], [], .exitZero⟩
  | (name, pages) :: rest =>
      match generate_users_badge parse fetch render delay pages with
      | .fatalExit => ⟨[progressMsg name], [], .fatalAbort⟩
      | .panicked => ⟨[progressMsg name], [], .panicAbort⟩
      | .err =>
          let o := runBatch parse fetch render delay dest rest
          ⟨progressMsg name :: failMsg name :: o.logs, o.files, o.exit⟩
      | .ok _t svg =>
          let o := runBatch parse fetch render delay dest rest
          ⟨progressMsg name :: o.logs, (svgPath dest name, svg) :: o.files, o.exit⟩

/-! ## Helper lemmas -/

theorem findIdx_eq_none_iff (hay pat : List Char) :
    findIdx hay pat = none ↔ hasSub hay pat = false := by
  induction hay with
  | nil => by_cases hp : pat.isEmpty <;> simp [findIdx, hasSub, hp]
  | cons h t ih =>
      by_cases hp : pat.isPrefixOf (h :: t) <;>
        simp [findIdx, hasSub, hp, Option.map_eq_none', ih]

theorem rfindIdx_eq_none_iff (hay pat : List Char) :
    rfindIdx hay pat = none ↔ hasSub hay pat = false := by
  induction hay with
  | nil => by_cases hp : pat.isEmpty <;> simp [rfindIdx, hasSub, hp]
  | cons h t ih =>
      cases hr : rfindIdx t pat with
      | some i =>
          have ht : hasSub t pat = true := by
            rcases Bool.eq_false_or_eq_true (hasSub t pat) with h' | h'
            · exact h'
            · exact absurd (ih.mpr h') (by simp [hr])
          simp [rfindIdx, hasSub, hr, ht]
      | none =>
          have ht : hasSub t pat = false := ih.mp hr
          by_cases hp : pat.isPrefixOf (h :: t) <;>
            simp [rfindIdx, hasSub, hr, ht, hp]

/-! ## Claims -/

/-- C2: for every input HTML string that lacks the substring `<noscript>` or
lacks `</noscript>`, `extract_chrome_webstore_users` aborts the whole process
(`std::process::exit(-1)`, modelled by `ChromeResult.fatalExit`) and in
particular never returns the quiet "no count" value. -/
theorem chrome_missing_noscript_fatal (parse : String → List Node) (page : String)
    (h : hasSub page.data noscriptOpen = false ∨ hasSub page.data noscriptClose = false) :
    extract_chrome_webstore_users parse page = ChromeResult.fatalExit ∧
    ∀ r : Option Nat, extract_chrome_webstore_users parse page ≠ ChromeResult.ok r := by
  have hmain : extract_chrome_webstore_users parse page = ChromeResult.fatalExit := by
    unfold extract_chrome_webstore_users
    rcases h with h | h
    · rw [(findIdx_eq_none_iff _ _).mpr h]
    · rw [(rfindIdx_eq_none_iff _ _).mpr h]
      cases findIdx page.data noscriptOpen <;> rfl
  refine ⟨hmain, fun r hr => ?_⟩
  rw [hmain] at hr
  exact ChromeResult.noConfusion hr

theorem chrome_missing_noscript_fatal_witness :
    hasSub "hello".data noscriptOpen = false ∧
    extract_chrome_webstore_users (fun _ => []) "hello" = ChromeResult.fatalExit :=
  ⟨by decide,
   (chrome_missing_noscript_fatal (fun _ => []) "hello" (Or.inl (by decide))).1⟩

/-- C9: when both markers are present but the last `</noscript>` starts before
the first `<noscript>` plus 10, the unguarded slice
`page_contents[start_idx + 10..end_idx]` panics (it neither returns `None`,
nor exits, nor degrades gracefully). -/
theorem chrome_inverted_noscript_panics (parse : String → List Node) (page : String)
    (s e : Nat) (hs : findIdx page.data noscriptOpen = some s)
    (he : rfindIdx page.data noscriptClose = some e) (hlt : e < s + 10) :
    extract_chrome_webstore_users parse page = ChromeResult.panicked := by
  unfold extract_chrome_webstore_users
  rw [hs, he]
  simp [hlt]

theorem chrome_inverted_noscript_panics_witness :
    findIdx "</noscript><noscript>".data noscriptOpen = some 11 ∧
    rfindIdx "</noscript><noscript>".data noscriptClose = some 0 ∧
    extract_chrome_webstore_users (fun _ => []) "</noscript><noscript>" =
      ChromeResult.panicked :=
  ⟨by decide, by decide,
   chrome_inverted_noscript_panics (fun _ => []) "</noscript><noscript>" 11 0
     (by decide) (by decide) (by decide)⟩

/-- A span the chrome candidate loop passes over without returning anything:
it has no `title` attribute, or its title differs from its own text, or the
title does not split into exactly two whitespace tokens. -/
def chromeSkips (n : Node) : Bool :=
  match nodeAttr "title" n with
  | none => true
  | some title => !(title == nodeText n) || !((splitWS title).length == 2)

theorem chromeLoop_skip (n : Node) (rest : List Node) (h : chromeSkips n = true) :
    chromeLoop (n :: rest) = chromeLoop rest := by
  unfold chromeSkips at h
  simp only [chromeLoop]
  cases hA : nodeAttr "title" n with
  | none => rfl
  | some title =>
      rw [hA] at h
      simp only [Bool.or_eq_true, Bool.not_eq_true', beq_eq_false_iff_ne] at h
      by_cases heq : title = nodeText n
      · have hlen : (splitWS title).length ≠ 2 := by
          rcases h with h | h
          · exact absurd heq h
          · exact h
        simp only [if_pos heq]
        cases hsp : splitWS title with
        | nil => rfl
        | cons a l =>
            cases l with
            | nil => rfl
            | cons b l2 =>
                cases l2 with
                | nil => exact absurd (by rw [hsp]; rfl) hlen
                | cons c l3 => rfl
      · simp only [if_neg heq]

theorem chromeLoop_append_skips (pre l : List Node)
    (hpre : ∀ n ∈ pre, chromeSkips n = true) :
    chromeLoop (pre ++ l) = chromeLoop l := by
  induction pre with
  | nil => rfl
  | cons n t ih =>
      rw [List.cons_append, chromeLoop_skip n (t ++ l) (hpre n (by simp))]
      exact ih (fun m hm => hpre m (by simp [hm]))

/-- A span whose title equals its text but has two tokens with an unparseable
first token; it poisons the chrome scan. -/
def poisonSpan : Node := Node.elem "span" [("title", "x y")] [Node.text "x y"]

/-- A span carrying a well-formed count, placed after the poison span. -/
def countSpan : Node := Node.elem "span" [("title", "42 users")] [Node.text "42 users"]

/-- A parser producing the poison span before the well-formed count span. -/
def poisonParse : String → List Node := fun _ => [poisonSpan, countSpan]

/-- C5 counterexample: the in-`<noscript>` substring contains a span whose
title equals its text, splits into exactly two tokens and has a parseable
first token (`countSpan`, value 42), yet the extractor returns `ok none`
because an earlier candidate (`poisonSpan`) has two tokens whose first token
fails to parse.  The claim demanded `ok (some 42)`. -/
theorem chrome_poison_span_counterexample :
    findSpansList (poisonParse "x") = [poisonSpan, countSpan] ∧
    nodeAttr "title" countSpan = some "42 users" ∧
    nodeText countSpan = "42 users" ∧
    splitWS "42 users" = ["42", "users"] ∧
    parseU32 "42" = some 42 ∧
    extract_chrome_webstore_users poisonParse "<noscript>x</noscript>" =
      ChromeResult.ok none ∧
    ChromeResult.ok none ≠ ChromeResult.ok (some 42) :=
  ⟨rfl, by decide, by decide, by decide, by decide, by decide, by decide⟩

/-- C5 amended: the extractor returns `Some` of the value parsed from the
first span candidate (title present, equal to its own text, exactly two
whitespace tokens), provided every earlier span is skippable (no title, title
differing from its text, or a token count other than two) and that first
candidate's first token parses.  An earlier two-token candidate with an
unparseable first token instead makes the extractor return the quiet no-count
value. -/
theorem chrome_first_candidate_value (parse : String → List Node) (page : String)
    (s e : Nat) (pre rest : List Node) (sp : Node) (title a b : String) (v : Nat)
    (hs : findIdx page.data noscriptOpen = some s)
    (he : rfindIdx page.data noscriptClose = some e)
    (hle : ¬ s + 10 > e)
    (hspans : findSpansList
        (parse (String.mk ((page.data.drop (s + 10)).take (e - (s + 10)))))
        = pre ++ sp :: rest)
    (hpre : ∀ n ∈ pre, chromeSkips n = true)
    (ht : nodeAttr "title" sp = some title)
    (heq : title = nodeText sp)
    (hsplit : splitWS title = [a, b])
    (hv : parseU32 a = some v) :
    extract_chrome_webstore_users parse page = ChromeResult.ok (some v) := by
  unfold extract_chrome_webstore_users
  rw [hs, he]
  simp only [if_neg hle]
  rw [hspans, chromeLoop_append_skips pre (sp :: rest) hpre]
  simp only [chromeLoop]
  rw [ht]
  simp only [if_pos heq]
  rw [hsplit]
  exact congrArg ChromeResult.ok hv

theorem chrome_first_candidate_value_witness :
    extract_chrome_webstore_users (fun _ => [Node.elem "span" [] [], countSpan])
        "<noscript>x</noscript>" = ChromeResult.ok (some 42) :=
  chrome_first_candidate_value (fun _ => [Node.elem "span" [] [], countSpan])
    "<noscript>x</noscript>" 0 11 [Node.elem "span" [] []] [] countSpan
    "42 users" "42" "users" 42 (by decide) (by decide) (by decide) rfl
    (by decide) (by decide) (by decide) (by decide) (by decide)

/-- C7: in the chrome candidate loop, a candidate whose title equals its text
but splits into a token count other than two is skipped (scanning continues
with the remaining spans), while a candidate with exactly two tokens whose
first token fails to parse makes the extractor return the quiet no-count
value rather than continuing or aborting. -/
theorem chrome_candidate_skip_and_parse_failure (n : Node) (rest : List Node)
    (title : String) (ht : nodeAttr "title" n = some title)
    (heq : title = nodeText n) :
    ((splitWS title).length ≠ 2 → chromeLoop (n :: rest) = chromeLoop rest) ∧
    (∀ a b, splitWS title = [a, b] → parseU32 a = none →
      chromeLoop (n :: rest) = none) := by
  constructor
  · intro hlen
    apply chromeLoop_skip
    unfold chromeSkips
    rw [ht]
    simp [hlen]
  · intro a b hsplit hpf
    simp only [chromeLoop]
    rw [ht]
    simp only [if_pos heq]
    rw [hsplit]
    exact hpf

theorem chrome_candidate_skip_and_parse_failure_witness :
    chromeLoop [Node.elem "span" [("title", "a b c")] [Node.text "a b c"]] =
      chromeLoop [] ∧
    chromeLoop [Node.elem "span" [("title", "xx users")] [Node.text "xx users"]] =
      none :=
  ⟨(chrome_candidate_skip_and_parse_failure
      (Node.elem "span" [("title", "a b c")] [Node.text "a b c"]) [] "a b c"
      (by decide) (by decide)).1 (by decide),
   (chrome_candidate_skip_and_parse_failure
      (Node.elem "span" [("title", "xx users")] [Node.text "xx users"]) []
      "xx users" (by decide) (by decide)).2 "xx" "users" (by decide) (by decide)⟩

theorem mozillaLoop_skip_not_users (p : Node × List Node)
    (l : List (Node × List Node)) (h : strTrim (nodeText p.1) ≠ "Users") :
    mozillaLoop (p :: l) = mozillaLoop l := by
  obtain ⟨dt, sibs⟩ := p
  simp only [mozillaLoop]
  rw [if_neg h]

theorem mozillaLoop_append_not_users (pre l : List (Node × List Node))
    (hpre : ∀ p ∈ pre, strTrim (nodeText p.1) ≠ "Users") :
    mozillaLoop (pre ++ l) = mozillaLoop l := by
  induction pre with
  | nil => rfl
  | cons p t ih =>
      rw [List.cons_append, mozillaLoop_skip_not_users p (t ++ l) (hpre p (by simp))]
      exact ih (fun q hq => hpre q (by simp [hq]))

/-- The `dt.MetadataCard-title` cell reading `Users`. -/
def usersDt : Node :=
  Node.elem "dt" [("class", "MetadataCard-title")] [Node.text "Users"]

/-- A `dd` value cell with the given text. -/
def ddCell (s : String) : Node := Node.elem "dd" [] [Node.text s]

/-- A `dl.MetadataCard-list` element with the given children. -/
def metaList (cs : List Node) : Node :=
  Node.elem "dl" [("class", "MetadataCard-list")] cs

/-- A metadata list in which a preceding pair (`dt` "Other", `dd` "xx")
comes before the "Users" pair (`usersDt`, `dd` "42"). -/
def precededDoc : List Node :=
  [metaList [Node.elem "dt" [] [Node.text "Other"], ddCell "xx", usersDt,
    ddCell "42"]]

def precededParse : String → List Node := fun _ => precededDoc

/-- C3 counterexample: `usersDt` has trimmed text `Users` and a sibling `dd`
value cell whose text parses to 42, yet because another dt/dd pair precedes it
under the same parent the extractor reads the first `dd` child (`"xx"`, which
does not parse) and returns `none` instead of `some 42`. -/
theorem mozilla_preceding_pair_counterexample :
    dtCandsList false precededDoc precededDoc =
      [(usersDt, [Node.elem "dt" [] [Node.text "Other"], ddCell "xx", usersDt,
        ddCell "42"])] ∧
    strTrim (nodeText usersDt) = "Users" ∧
    nodeName (ddCell "42") = some "dd" ∧
    parseU32 (nodeText (ddCell "42")) = some 42 ∧
    extract_mozilla_addon_users precededParse "page" = none ∧
    (none : Option Nat) ≠ some 42 :=
  ⟨rfl, by decide, by decide, by decide, by decide, by decide⟩

/-- C3 amended: for the first candidate title cell whose trimmed text is
exactly `Users` (whitespace around `Users` is tolerated), the extractor takes
the first `dd`-named child of that cell's parent — not necessarily the value
cell paired with the label — and returns `Some` of the parse of that child's
text when it succeeds; preceding dt/dd pairs under the same parent therefore
do affect the result. -/
theorem mozilla_users_first_dd_value (parse : String → List Node) (page : String)
    (doc : List Node) (pre rest : List (Node × List Node)) (dt dd : Node)
    (sibs : List Node) (v : Nat)
    (hdoc : parse page = doc)
    (hcands : dtCandsList false doc doc = pre ++ (dt, sibs) :: rest)
    (hpre : ∀ p ∈ pre, strTrim (nodeText p.1) ≠ "Users")
    (hu : strTrim (nodeText dt) = "Users")
    (hdd : sibs.find? (fun c => (nodeName c).getD "" = "dd") = some dd)
    (hv : parseU32 (nodeText dd) = some v) :
    extract_mozilla_addon_users parse page = some v := by
  show mozillaLoop (dtCandsList false (parse page) (parse page)) = some v
  rw [hdoc, hcands, mozillaLoop_append_not_users pre _ hpre]
  simp only [mozillaLoop]
  rw [if_pos hu, hdd]
  exact hv

theorem mozilla_users_first_dd_value_witness :
    extract_mozilla_addon_users (fun _ => [metaList [usersDt, ddCell "42"]])
      "page" = some 42 :=
  mozilla_users_first_dd_value (fun _ => [metaList [usersDt, ddCell "42"]])
    "page" [metaList [usersDt, ddCell "42"]] [] [] usersDt (ddCell "42")
    [usersDt, ddCell "42"] 42 rfl rfl (by simp) (by decide) (by decide)
    (by decide)

/-- Two metadata lists: the first holds a `Users` title cell with no `dd`
sibling at all, the second a `Users` cell paired with `dd` 7. -/
def noDdDoc : List Node := [metaList [usersDt], metaList [usersDt, ddCell "7"]]

def noDdParse : String → List Node := fun _ => noDdDoc

/-- C4 counterexample: the first `Users` title cell has no `dd`-typed sibling,
yet the extractor does not return `none` immediately — it continues scanning
and returns 7 from the second candidate. -/
theorem mozilla_missing_sibling_counterexample :
    dtCandsList false noDdDoc noDdDoc =
      [(usersDt, [usersDt]), (usersDt, [usersDt, ddCell "7"])] ∧
    [usersDt].find? (fun c => (nodeName c).getD "" = "dd") = none ∧
    extract_mozilla_addon_users noDdParse "page" = some 7 ∧
    some 7 ≠ (none : Option Nat) :=
  ⟨rfl, by decide, by decide, by decide⟩

/-- C4 amended: when a title cell whose trimmed text is `Users` has no
`dd`-named sibling under its parent, the candidate loop continues with the
remaining title-cell candidates (the immediate-`none` exit happens only when
a `dd` sibling exists whose text fails to parse). -/
theorem mozilla_missing_sibling_skips (dt : Node) (sibs : List Node)
    (rest : List (Node × List Node))
    (hu : strTrim (nodeText dt) = "Users")
    (hnone : sibs.find? (fun c => (nodeName c).getD "" = "dd") = none) :
    mozillaLoop ((dt, sibs) :: rest) = mozillaLoop rest := by
  simp only [mozillaLoop]
  rw [if_pos hu, hnone]

theorem mozilla_missing_sibling_skips_witness :
    mozillaLoop [(usersDt, [usersDt]), (usersDt, [usersDt, ddCell "7"])] =
      mozillaLoop [(usersDt, [usersDt, ddCell "7"])] :=
  mozilla_missing_sibling_skips usersDt [usersDt]
    [(usersDt, [usersDt, ddCell "7"])] (by decide) (by decide)

/-- The chrome store's contribution to an entry's total: zero when no chrome
id is configured; otherwise the extracted count of the fetched page with
`unwrap_or(0)`, assuming fetch succeeds and extraction returns. -/
def chromeContribIs (parse : String → List Node)
    (fetch : String → Except Unit String) (copt : Option String) (c : Nat) :
    Prop :=
  match copt with
  | none => c = 0
  | some cid => ∃ page r, fetch (chromeUrl cid) = Except.ok page ∧
      extract_chrome_webstore_users parse page = ChromeResult.ok r ∧ c = r.getD 0

/-- The mozilla store's contribution, analogously. -/
def mozillaContribIs (parse : String → List Node)
    (fetch : String → Except Unit String) (mopt : Option String) (m : Nat) :
    Prop :=
  match mopt with
  | none => m = 0
  | some mid => ∃ page, fetch (mozillaUrl mid) = Except.ok page ∧
      m = (extract_mozilla_addon_users parse page).getD 0

theorem mozillaStep_total (parse : String → List Node)
    (fetch : String → Except Unit String) (render : Nat → String)
    (pages : ExtensionPages) (total m : Nat) (htot : total < 2 ^ 32)
    (hm : mozillaContribIs parse fetch pages.mozilla m) :
    mozillaStep parse fetch render pages total =
      GenResult.ok ((total + m) % 2 ^ 32) (render ((total + m) % 2 ^ 32)) := by
  unfold mozillaStep
  cases hmm : pages.mozilla with
  | none =>
      rw [hmm] at hm
      have hm0 : m = 0 := hm
      subst hm0
      simp only [Nat.add_zero, Nat.mod_eq_of_lt htot]
  | some mid =>
      rw [hmm] at hm
      obtain ⟨page, hf, hval⟩ := hm
      simp only [hf, ← hval]

theorem generate_users_badge_total (parse : String → List Node)
    (fetch : String → Except Unit String) (render : Nat → String) (delay : Nat)
    (pages : ExtensionPages) (c m : Nat)
    (hc : chromeContribIs parse fetch pages.chrome c)
    (hm : mozillaContribIs parse fetch pages.mozilla m) :
    generate_users_badge parse fetch render delay pages =
      GenResult.ok ((c + m) % 2 ^ 32) (render ((c + m) % 2 ^ 32)) := by
  unfold generate_users_badge
  cases hcc : pages.chrome with
  | none =>
      rw [hcc] at hc
      have hc0 : c = 0 := hc
      subst hc0
      exact mozillaStep_total parse fetch render pages 0 m (by norm_num) hm
  | some cid =>
      rw [hcc] at hc
      obtain ⟨page, r, hf, hex, hval⟩ := hc
      have hstep := mozillaStep_total parse fetch render pages
        ((0 + r.getD 0) % 2 ^ 32) m (Nat.mod_lt _ (by norm_num)) hm
      rw [Nat.zero_add, ← hval, Nat.mod_add_mod] at hstep
      simp only [hf, hex, Nat.zero_add, ← hval, hstep]

/-- A fetch that always fails with a transport error. -/
def failFetch : String → Except Unit String := fun _ => Except.error ()

/-- C1 counterexample: with a configured chrome id and a failing fetch,
`generate_users_badge` returns an error for the entry (`?` propagates the
fetch error) instead of treating the store as contributing zero and
rendering a badge (which would be `ok 0 "b"` here). -/
theorem fetch_error_counterexample :
    generate_users_badge (fun _ => []) failFetch (fun _ => "b") 0
      ⟨some "abc", none⟩ = GenResult.err ∧
    GenResult.err ≠ GenResult.ok 0 "b" :=
  ⟨by decide, by decide⟩

/-- C6 amended: the total is the sum of the two stores' contributions (chrome
first, mozilla second; a store contributes its extracted count when its id is
configured and extraction returns a count, and zero when its id is absent or
extraction returns no count) — taken modulo `2^32`, because the accumulator
is a `u32`. -/
theorem generate_total_is_wrapped_sum (parse : String → List Node)
    (fetch : String → Except Unit String) (render : Nat → String) (delay : Nat)
    (pages : ExtensionPages) (c m : Nat)
    (hc : chromeContribIs parse fetch pages.chrome c)
    (hm : mozillaContribIs parse fetch pages.mozilla m) :
    generate_users_badge parse fetch render delay pages =
      GenResult.ok ((c + m) % 2 ^ 32) (render ((c + m) % 2 ^ 32)) :=
  generate_users_badge_total parse fetch render delay pages c m hc hm

theorem generate_total_is_wrapped_sum_witness :
    generate_users_badge (fun _ => []) failFetch (fun _ => "b") 0 ⟨none, none⟩ =
      GenResult.ok ((0 + 0) % 2 ^ 32) "b" :=
  generate_total_is_wrapped_sum (fun _ => []) failFetch (fun _ => "b") 0
    ⟨none, none⟩ 0 0 rfl rfl

/-- A chrome span carrying the largest `u32` count. -/
def ovSpan : Node :=
  Node.elem "span" [("title", "4294967295 users")] [Node.text "4294967295 users"]

/-- Parser for the overflow scenario: the chrome `<noscript>` slice `"c"`
holds `ovSpan`; every other page is the mozilla card with count 1. -/
def ovParse : String → List Node :=
  fun s => if s = "c" then [ovSpan] else [metaList [usersDt, ddCell "1"]]

/-- Fetch for the overflow scenario. -/
def ovFetch : String → Except Unit String :=
  fun url => if url = chromeUrl "cid" then Except.ok "<noscript>c</noscript>"
             else Except.ok "m"

def ovPages : ExtensionPages := ⟨some "cid", some "mid"⟩

def ovRender : Nat → String := fun _ => "svg"

/-- C6 counterexample: contributions 4294967295 (chrome) and 1 (mozilla) sum
to 4294967296, but the badge total is 0 — the `u32` accumulator wraps, so the
total does not always equal the plain sum of the contributions. -/
theorem generate_overflow_counterexample :
    extract_chrome_webstore_users ovParse "<noscript>c</noscript>" =
      ChromeResult.ok (some 4294967295) ∧
    extract_mozilla_addon_users ovParse "m" = some 1 ∧
    generate_users_badge ovParse ovFetch ovRender 0 ovPages =
      GenResult.ok 0 "svg" ∧
    (0 : Nat) ≠ 4294967295 + 1 :=
  ⟨by decide, by decide, by decide, by decide⟩

/-- C10: the accumulator is a `u32` with wrapping addition: when the two
stores' counts sum past `u32::MAX`, the resulting total is the sum modulo
`2^32` — strictly less than the sum (not widened) and different from
`u32::MAX` (not saturated). -/
theorem generate_wraps_on_overflow (parse : String → List Node)
    (fetch : String → Except Unit String) (render : Nat → String) (delay : Nat)
    (pages : ExtensionPages) (c m : Nat)
    (hc : chromeContribIs parse fetch pages.chrome c)
    (hm : mozillaContribIs parse fetch pages.mozilla m)
    (hcw : c < 2 ^ 32) (hmw : m < 2 ^ 32) (hov : 2 ^ 32 ≤ c + m) :
    generate_users_badge parse fetch render delay pages =
      GenResult.ok ((c + m) % 2 ^ 32) (render ((c + m) % 2 ^ 32)) ∧
    (c + m) % 2 ^ 32 = c + m - 2 ^ 32 ∧
    (c + m) % 2 ^ 32 ≠ c + m ∧
    (c + m) % 2 ^ 32 ≠ 2 ^ 32 - 1 := by
  have h32 : (2 : Nat) ^ 32 = 4294967296 := by norm_num
  refine ⟨generate_users_badge_total parse fetch render delay pages c m hc hm,
    ?_, ?_, ?_⟩ <;> rw [h32] at * <;> omega

theorem generate_wraps_on_overflow_witness :
    generate_users_badge ovParse ovFetch ovRender 0 ovPages =
      GenResult.ok ((4294967295 + 1) % 2 ^ 32)
        (ovRender ((4294967295 + 1) % 2 ^ 32)) ∧
    (4294967295 + 1) % 2 ^ 32 ≠ 4294967295 + 1 :=
  have h := generate_wraps_on_overflow ovParse ovFetch ovRender 0 ovPages
    4294967295 1
    ⟨"<noscript>c</noscript>", some 4294967295, by decide, by decide, rfl⟩
    ⟨"m", by decide, by decide⟩ (by norm_num) (by norm_num) (by norm_num)
  ⟨h.1, h.2.2.1⟩

theorem svgPath_inj (dest a b : String) (h : svgPath dest a = svgPath dest b) :
    a = b := by
  unfold svgPath at h
  have hd : (dest ++ "/").data ++ (a.data ++ ".svg".data) =
      (dest ++ "/").data ++ (b.data ++ ".svg".data) := by
    have := congrArg String.data h
    simpa [String.data_append, List.append_assoc] using this
  have hcl := List.append_cancel_left hd
  have hcr := List.append_cancel_right hcl
  cases a
  cases b
  exact congrArg String.mk (by simpa using hcr)

theorem runBatch_exit (parse : String → List Node)
    (fetch : String → Except Unit String) (render : Nat → String) (delay : Nat)
    (dest : String) (entries : List (String × ExtensionPages))
    (h : ∀ e ∈ entries,
      generate_users_badge parse fetch render delay e.2 ≠ GenResult.fatalExit ∧
      generate_users_badge parse fetch render delay e.2 ≠ GenResult.panicked) :
    (runBatch parse fetch render delay dest entries).exit = ExitKind.exitZero := by
  induction entries with
  | nil => rfl
  | cons e rest ih =>
      obtain ⟨name, pages⟩ := e
      have he := h (name, pages) (by simp)
      cases hg : generate_users_badge parse fetch render delay pages with
      | fatalExit => exact absurd hg he.1
      | panicked => exact absurd hg he.2
      | err =>
          simp only [runBatch, hg]
          exact ih (fun x hx => h x (by simp [hx]))
      | ok t svg =>
          simp only [runBatch, hg]
          exact ih (fun x hx => h x (by simp [hx]))

theorem runBatch_files (parse : String → List Node)
    (fetch : String → Except Unit String) (render : Nat → String) (delay : Nat)
    (dest : String) (entries : List (String × ExtensionPages))
    (h : ∀ e ∈ entries,
      generate_users_badge parse fetch render delay e.2 ≠ GenResult.fatalExit ∧
      generate_users_badge parse fetch render delay e.2 ≠ GenResult.panicked) :
    (runBatch parse fetch render delay dest entries).files =
      entries.filterMap (fun e =>
        match generate_users_badge parse fetch render delay e.2 with
        | GenResult.ok _t svg => some (svgPath dest e.1, svg)
        | _ => none) := by
  induction entries with
  | nil => rfl
  | cons e rest ih =>
      obtain ⟨name, pages⟩ := e
      have he := h (name, pages) (by simp)
      have ihr := ih (fun x hx => h x (by simp [hx]))
      cases hg : generate_users_badge parse fetch render delay pages with
      | fatalExit => exact absurd hg he.1
      | panicked => exact absurd hg he.2
      | err => simp only [runBatch, hg, List.filterMap_cons, ihr]
      | ok t svg => simp only [runBatch, hg, List.filterMap_cons, ihr]

theorem runBatch_err_log (parse : String → List Node)
    (fetch : String → Except Unit String) (render : Nat → String) (delay : Nat)
    (dest : String) (entries : List (String × ExtensionPages))
    (h : ∀ e ∈ entries,
      generate_users_badge parse fetch render delay e.2 ≠ GenResult.fatalExit ∧
      generate_users_badge parse fetch render delay e.2 ≠ GenResult.panicked)
    (e : String × ExtensionPages) (hmem : e ∈ entries)
    (herr : generate_users_badge parse fetch render delay e.2 = GenResult.err) :
    failMsg e.1 ∈ (runBatch parse fetch render delay dest entries).logs := by
  induction entries with
  | nil => exact absurd hmem (List.not_mem_nil e)
  | cons x rest ih =>
      obtain ⟨name, pages⟩ := x
      have hx := h (name, pages) (by simp)
      rcases List.mem_cons.mp hmem with heq | hrest
      · subst heq
        have herr' : generate_users_badge parse fetch render delay pages =
            GenResult.err := herr
        simp only [runBatch, herr']
        simp
      · have ihr := ih (fun y hy => h y (by simp [hy])) hrest
        cases hg : generate_users_badge parse fetch render delay pages with
        | fatalExit => exact absurd hg hx.1
        | panicked => exact absurd hg hx.2
        | err =>
            simp only [runBatch, hg]
            simp only [List.mem_cons]
            exact Or.inr (Or.inr ihr)
        | ok t svg =>
            simp only [runBatch, hg]
            simp only [List.mem_cons]
            exact Or.inr ihr

/-- C1 amended: a fetch error for a configured store is not recovered —
`generate_users_badge` propagates it and returns an error for the whole
entry, producing no badge (recovery to a zero contribution applies only to
extraction returning no count, not to fetch errors): first conjunct, a
configured chrome id whose fetch fails; second conjunct, a configured
mozilla id whose fetch fails, whether no chrome id is configured or the
chrome leg completed (fetch ok, extraction returned); third conjunct, the
batch driver then logs a failure naming the entry and the run still exits
with code 0. -/
theorem fetch_error_propagates (parse : String → List Node)
    (fetch : String → Except Unit String) (render : Nat → String) (delay : Nat)
    (pages : ExtensionPages) :
    (∀ cid, pages.chrome = some cid → fetch (chromeUrl cid) = Except.error () →
      generate_users_badge parse fetch render delay pages = GenResult.err) ∧
    (∀ mid, pages.mozilla = some mid → fetch (mozillaUrl mid) = Except.error () →
      (pages.chrome = none ∨
        ∃ cid page r, pages.chrome = some cid ∧
          fetch (chromeUrl cid) = Except.ok page ∧
          extract_chrome_webstore_users parse page = ChromeResult.ok r) →
      generate_users_badge parse fetch render delay pages = GenResult.err) ∧
    (∀ dest entries,
      (∀ e ∈ entries,
        generate_users_badge parse fetch render delay e.2 ≠ GenResult.fatalExit ∧
        generate_users_badge parse fetch render delay e.2 ≠ GenResult.panicked) →
      ∀ name, (name, pages) ∈ entries →
      generate_users_badge parse fetch render delay pages = GenResult.err →
      failMsg name ∈ (runBatch parse fetch render delay dest entries).logs ∧
      (runBatch parse fetch render delay dest entries).exit =
        ExitKind.exitZero) := by
  refine ⟨?_, ?_, ?_⟩
  · intro cid hc hf
    unfold generate_users_badge
    simp only [hc, hf]
  · intro mid hm hf hchrome
    rcases hchrome with hc | ⟨cid, page, r, hc, hfo, hex⟩
    · unfold generate_users_badge mozillaStep
      simp only [hc, hm, hf]
    · unfold generate_users_badge mozillaStep
      simp only [hc, hfo, hex, hm, hf]
  · intro dest entries hsafe name hmem herr
    exact ⟨runBatch_err_log parse fetch render delay dest entries hsafe
        (name, pages) hmem herr,
      runBatch_exit parse fetch render delay dest entries hsafe⟩

/-- Fetch for the C1 witness: the chrome page fetch succeeds (its page has
the `<noscript>` markers, and extraction returns quietly), every other
fetch — in particular the mozilla one — fails. -/
def mixFetch : String → Except Unit String :=
  fun url => if url = chromeUrl "cid" then Except.ok "<noscript>c</noscript>"
             else Except.error ()

theorem fetch_error_propagates_witness :
    generate_users_badge (fun _ => []) mixFetch (fun _ => "b") 0
      ⟨some "cid", some "mid"⟩ = GenResult.err ∧
    failMsg "bad2" ∈ (runBatch (fun _ => []) mixFetch (fun _ => "b") 0 "out"
      [("bad2", ⟨some "cid", some "mid"⟩)]).logs ∧
    (runBatch (fun _ => []) mixFetch (fun _ => "b") 0 "out"
      [("bad2", ⟨some "cid", some "mid"⟩)]).exit = ExitKind.exitZero := by
  have h := fetch_error_propagates (fun _ => []) mixFetch (fun _ => "b") 0
    ⟨some "cid", some "mid"⟩
  have herr := h.2.1 "mid" rfl (by decide)
    (Or.inr ⟨"cid", "<noscript>c</noscript>", none, rfl, by decide, by decide⟩)
  have hb := h.2.2 "out" [("bad2", ⟨some "cid", some "mid"⟩)] (by decide)
    "bad2" (by decide) herr
  exact ⟨herr, hb.1, hb.2⟩

/-- C8: when no entry hits the chrome extractor's fatal exit or a panic, the
batch loop logs a failure message naming each failing entry and writes no
file for it, writes the SVG of each succeeding entry to `<dest>/<name>.svg`,
and the process still ends normally with exit code 0 despite per-entry
failures. -/
theorem batch_continues_past_failures (parse : String → List Node)
    (fetch : String → Except Unit String) (render : Nat → String) (delay : Nat)
    (dest : String) (entries : List (String × ExtensionPages))
    (hsafe : ∀ e ∈ entries,
      generate_users_badge parse fetch render delay e.2 ≠ GenResult.fatalExit ∧
      generate_users_badge parse fetch render delay e.2 ≠ GenResult.panicked)
    (hnd : (entries.map Prod.fst).Nodup) :
    (runBatch parse fetch render delay dest entries).exit = ExitKind.exitZero ∧
    ∀ e ∈ entries,
      (generate_users_badge parse fetch render delay e.2 = GenResult.err →
        failMsg e.1 ∈ (runBatch parse fetch render delay dest entries).logs ∧
        ∀ c, (svgPath dest e.1, c) ∉
          (runBatch parse fetch render delay dest entries).files) ∧
      (∀ t svg,
        generate_users_badge parse fetch render delay e.2 = GenResult.ok t svg →
        (svgPath dest e.1, svg) ∈
          (runBatch parse fetch render delay dest entries).files) := by
  refine ⟨runBatch_exit parse fetch render delay dest entries hsafe, ?_⟩
  intro e hmem
  constructor
  · intro herr
    refine ⟨runBatch_err_log parse fetch render delay dest entries hsafe e hmem
      herr, ?_⟩
    intro c hcmem
    rw [runBatch_files parse fetch render delay dest entries hsafe] at hcmem
    obtain ⟨e', hmem', hsome⟩ := List.mem_filterMap.mp hcmem
    cases hg : generate_users_badge parse fetch render delay e'.2 with
    | fatalExit => exact (hsafe e' hmem').1 hg
    | panicked => exact (hsafe e' hmem').2 hg
    | err =>
        rw [hg] at hsome
        exact Option.noConfusion hsome
    | ok t svg =>
        rw [hg] at hsome
        have hpair := Option.some.inj hsome
        have hpath : svgPath dest e'.1 = svgPath dest e.1 :=
          congrArg Prod.fst hpair
        have hname : e'.1 = e.1 := svgPath_inj dest _ _ hpath
        have hee : e' = e := List.inj_on_of_nodup_map hnd hmem' hmem hname
        rw [hee, herr] at hg
        exact GenResult.noConfusion hg
  · intro t svg hok
    rw [runBatch_files parse fetch render delay dest entries hsafe]
    refine List.mem_filterMap.mpr ⟨e, hmem, ?_⟩
    rw [hok]

/-- Batch of two entries: `bad` has a chrome id and every fetch fails;
`good` has no configured store at all. -/
def wEntries : List (String × ExtensionPages) :=
  [("bad", ⟨some "x", none⟩), ("good", ⟨none, none⟩)]

theorem batch_continues_past_failures_witness :
    (runBatch (fun _ => []) failFetch (fun _ => "b") 0 "out" wEntries).exit =
      ExitKind.exitZero ∧
    failMsg "bad" ∈
      (runBatch (fun _ => []) failFetch (fun _ => "b") 0 "out" wEntries).logs ∧
    (∀ c, (svgPath "out" "bad", c) ∉
      (runBatch (fun _ => []) failFetch (fun _ => "b") 0 "out" wEntries).files) ∧
    (svgPath "out" "good", "b") ∈
      (runBatch (fun _ => []) failFetch (fun _ => "b") 0 "out" wEntries).files := by
  have h := batch_continues_past_failures (fun _ => []) failFetch (fun _ => "b")
    0 "out" wEntries (by decide) (by decide)
  refine ⟨h.1, ?_, ?_, ?_⟩
  · exact ((h.2 ("bad", ⟨some "x", none⟩) (by decide)).1 (by decide)).1
  · exact ((h.2 ("bad", ⟨some "x", none⟩) (by decide)).1 (by decide)).2
  · exact (h.2 ("good", ⟨none, none⟩) (by decide)).2 0 "b" (by decide)
